import Mathlib

/-!
Shallow embedding of the `pixi-build-tools` repository:

* `Rollup` embeds `src/unnamed/part_000`, the rollup-configurator: the exported
  function `main(options)` that assembles an array of rollup configurations
  (CommonJS/ESM, unminified UMD, minified UMD) from the package manifest and an
  options object.
* `Monorepo` embeds `src/packages/api-extractor-lerna-monorepo/index.js`: the
  runner that lists workspace packages, filters them by the presence of
  `src/index.ts`, and invokes the api-extractor on each, exiting the process on
  a crash or on a nonzero error count.

Effects of the JavaScript code are made explicit: filesystem existence checks
and the `NODE_ENV` environment variable become fields of an environment record,
`process.exit` becomes an `exitCode` field of the run outcome, console output
becomes a list of log strings, and the external extractor (`Extractor.invoke`)
becomes an oracle function passed as an argument.
-/

namespace PixiBuildTools

/-- JavaScript truthiness of an optional string: `undefined` and the empty
string are falsy (this is what `if (!input)` and `a || b` test in the source). -/
def truthy : Option String → Bool
  | none => false
  | some s => !(s == "")

/-- JavaScript `a || b` on optional strings, as in `options.main || main`. -/
def jsOr (a b : Option String) : Option String :=
  if truthy a then a else b

/-- Model of Node `path.join(a, b)` for the path shapes used in this repository:
a leading `./` of the second component is dropped and the components are joined
with `/` (Node additionally normalizes other shapes that never occur here). -/
def pathJoin (a b : String) : String :=
  let b' := if b.startsWith "./" then b.drop 2 else b
  a ++ "/" ++ b'

namespace Rollup

/-- A character matched by the JavaScript regex class `[a-z]`. -/
def isLowerAZ (c : Char) : Bool := decide ('a' ≤ c) && decide (c ≤ 'z')

/-- Core of `pkg.name.replace(/[^a-z]+/g, '_')`: each maximal run of characters
outside `a`-`z` is replaced by a single underscore. The `inRun` flag records
whether the previous character was part of such a run. -/
def collapseNonAZ (inRun : Bool) : List Char → List Char
  | [] => []
  | c :: rest =>
    if isLowerAZ c then c :: collapseNonAZ false rest
    else if inRun then collapseNonAZ true rest
    else Char.ofNat 95 :: collapseNonAZ true rest

/-- `pkg.name.replace(/[^a-z]+/g, '_')` from the source (line 150). -/
def sanitizeName (s : String) : String :=
  String.mk (collapseNonAZ false s.data)

/-- The `bundleOutput` manifest field: an object that `Object.assign` merges
over the generated UMD output descriptor, overriding any field it sets.
Only the descriptor fields modelled here can be overridden. -/
structure BundleOutput where
  banner : Option String := none
  file : Option String := none
  format : Option String := none
  globals : Option (List (String × String)) := none
  name : Option String := none
  footer : Option String := none
  sourcemap : Option Bool := none
deriving DecidableEq

/-- The package manifest (`pkg = require(packageJsonPath)`), restricted to the
fields the configurator reads. `namespaceField` models the manifest field
called `namespace` (a reserved word in Lean). Dependency maps are association
lists whose keys model `Object.keys`. -/
structure Manifest where
  name : String
  version : String := ""
  author : String := ""
  main : Option String := none
  module : Option String := none
  bundle : Option String := none
  bundleInput : Option String := none
  bundleOutput : Option BundleOutput := none
  bundleNoExports : Option Bool := none
  namespaceField : Option String := none
  standalone : Bool := false
  peerDependencies : List (String × String) := []
  dependencies : List (String × String) := []
deriving DecidableEq

/-- The options object after the `Object.assign` defaulting on lines 38-42
(`sourcemap: true`, `globals: {}`, `production: false`; all other fields are
absent unless the caller supplies them). -/
structure Options where
  sourcemap : Bool := true
  globals : List (String × String) := []
  production : Bool := false
  external : List String := []
  excludedExternals : Option (List String) := none
  main : Option String := none
  module : Option String := none
  bundle : Option String := none
  input : Option String := none
deriving DecidableEq

/-- Ambient process state read by the configurator: the project folder
(`process.cwd()`), existence of the two candidate entry files, the
`NODE_ENV === 'production'` test, the `globals` map imported from
`@pixi-build-tools/globals`, and the compiled-at timestamp string. -/
structure Env where
  projectFolder : String := ""
  indexTsExists : Bool := false
  indexJsExists : Bool := false
  nodeEnvProduction : Bool := false
  importedGlobals : List (String × String) := []
  compiled : String := ""

/-- A rollup output descriptor. CommonJS/ESM descriptors leave `globals`,
`name` and `footer` unset (`none`), as the source only sets them on UMD
descriptors. -/
structure Output where
  banner : String
  file : String
  format : String
  sourcemap : Bool
  globals : Option (List (String × String)) := none
  name : Option String := none
  footer : Option String := none
deriving DecidableEq

/-- The rollup plugins appearing in the `plugins` arrays of the source. -/
inductive Plugin
  | sourcemaps
  | nodeResolve
  | commonjs
  | sucrase
  | stringPlugin
  | replacePlugin
  | terser
deriving DecidableEq

/-- A rollup configuration object. The source leaves `treeshake` unset on the
CJS/ESM configuration and sets it to `false` on both UMD configurations, hence
the `Option Bool`. -/
structure Config where
  input : String
  external : List String
  output : List Output
  plugins : List Plugin
  treeshake : Option Bool := none
deriving DecidableEq

/-- The `plugins` array built on lines 44-64. -/
def basePlugins : List Plugin :=
  [.sourcemaps, .nodeResolve, .commonjs, .sucrase, .stringPlugin, .replacePlugin]

/-- The banner comment built on lines 67-79 (before any namespace lines are
appended for the UMD bundles). -/
def bannerText (pkg : Manifest) (compiled : String) : String :=
  "/* eslint-disable */\n \n/*!\n * " ++ pkg.name ++ " - v" ++ pkg.version ++
  "\n * Compiled " ++ compiled ++
  "\n *\n * " ++ pkg.name ++ " is licensed under the MIT License." ++
  "\n * http://www.opensource.org/licenses/mit-license" ++
  "\n * \n * Copyright 2019-2020, " ++ pkg.author ++ ", All Rights Reserved\n */"

/-- Entry file resolution, lines 94-109: the caller override if truthy, else
`src/index.ts` if it exists, else `src/index.js` if it exists. -/
def resolveInput (env : Env) (options : Options) : Option String :=
  let input := options.input
  let input :=
    if truthy input then input
    else if env.indexTsExists then some (pathJoin env.projectFolder "src/index.ts")
    else input
  let input :=
    if truthy input then input
    else if env.indexJsExists then some (pathJoin env.projectFolder "src/index.js")
    else input
  input

/-- The externals list, lines 114-118: caller list, then peer-dependency keys,
then dependency keys, filtered by `!options.excludedExternals?.includes(pkg)`
(when `excludedExternals` is absent the optional chain is `undefined` and the
filter keeps everything). -/
def externalList (pkg : Manifest) (options : Options) : List String :=
  (options.external ++ pkg.peerDependencies.map Prod.fst
      ++ pkg.dependencies.map Prod.fst).filter
    (fun d =>
      match options.excludedExternals with
      | none => true
      | some excluded => !(excluded.contains d))

/-- `namespace || 'PIXI'` (line 151). -/
def nsOf (pkg : Manifest) : String :=
  (jsOr pkg.namespaceField (some "PIXI")).getD ""

/-- The namespace-attachment footer string built on line 159:
`if (typeof NAME !== 'undefined') { Object.assign(this.NS, NAME); }`. -/
def footerText (name ns : String) : String :=
  "if (typeof " ++ name ++ " !== \x27undefined\x27) \x7b Object.assign(this." ++
  ns ++ ", " ++ name ++ "); \x7d"

/-- The `this.X = this.X || {};` banner line appended for a namespace or for a
dotted namespace's base (lines 166 and 169). -/
def nsInitLine (x : String) : String :=
  "\nthis." ++ x ++ " = this." ++ x ++ " || \x7b\x7d;"

/-- The footer assigned on lines 154-160: absent for standalone packages and
when `bundleNoExports === true`, otherwise the namespace attachment. -/
def umdFooter (pkg : Manifest) : Option String :=
  if pkg.standalone then none
  else if pkg.bundleNoExports = some true then none
  else some (footerText (sanitizeName pkg.name) (nsOf pkg))

/-- The banner used by the UMD configurations after the mutations on lines
162-169: for a non-standalone package, a base-initialization line when the
namespace is dotted, then the namespace-initialization line. -/
def umdBanner (env : Env) (pkg : Manifest) : String :=
  let banner := bannerText pkg env.compiled
  if pkg.standalone then banner
  else
    let ns := nsOf pkg
    let banner :=
      if ns.data.contains (Char.ofNat 46) then
        banner ++ nsInitLine ((ns.splitOn ".").headD "")
      else banner
    banner ++ nsInitLine ns

/-- JavaScript object spread `{...a, ...b}` on string maps: keys of `b`
override keys of `a`. -/
def mergeAssoc (a b : List (String × String)) : List (String × String) :=
  a.filter (fun p => !((b.map Prod.fst).contains p.1)) ++ b

/-- `Object.assign({...generated fields...}, bundleOutput)` (lines 177-185 and
194-202): every field `bundleOutput` sets overrides the generated one. -/
def applyBundleOutput (o : Output) : Option BundleOutput → Output
  | none => o
  | some b =>
    { banner := b.banner.getD o.banner
      file := b.file.getD o.file
      format := b.format.getD o.format
      sourcemap := b.sourcemap.getD o.sourcemap
      globals := match b.globals with | some g => some g | none => o.globals
      name := match b.name with | some n => some n | none => o.name
      footer := match b.footer with | some f => some f | none => o.footer }

/-- The regex test `/\.js$/`: whether the path ends with `.js`. -/
def endsWithJs (s : String) : Bool :=
  ".js".data.isSuffixOf s.data

/-- `file.replace(/\.js$/, '.min.js')` (line 196). -/
def replaceJsSuffix (s : String) : String :=
  if endsWithJs s then s.dropRight 3 ++ ".min.js" else s

/-- The resolved entry path used by every configuration (empty exactly when
resolution failed, in which case `main` throws instead of using it). -/
def resolvedInput (env : Env) (options : Options) : String :=
  (resolveInput env options).getD ""

/-- The UMD bundle file path, line 172: `path.join(projectFolder,
options.bundle || bundle)`. -/
def umdFile (env : Env) (pkg : Manifest) (options : Options) : String :=
  pathJoin env.projectFolder ((jsOr options.bundle pkg.bundle).getD "")

/-- The CJS/ESM output list built by the two pushes on lines 127-142. -/
def cjsEsmOutputs (env : Env) (pkg : Manifest) (options : Options) : List Output :=
  (if truthy (jsOr options.main pkg.main) then
    [{ banner := bannerText pkg env.compiled
       file := pathJoin env.projectFolder ((jsOr options.main pkg.main).getD "")
       format := "cjs"
       sourcemap := options.sourcemap }]
   else [])
  ++
  (if truthy (jsOr options.module pkg.module) then
    [{ banner := bannerText pkg env.compiled
       file := pathJoin env.projectFolder ((jsOr options.module pkg.module).getD "")
       format := "esm"
       sourcemap := options.sourcemap }]
   else [])

/-- The first configuration object (`config`, lines 120-142). -/
def baseConfig (env : Env) (pkg : Manifest) (options : Options) : Config :=
  { input := resolvedInput env options
    external := externalList pkg options
    output := cjsEsmOutputs env pkg options
    plugins := basePlugins }

/-- The generated (pre-`bundleOutput`) unminified UMD output descriptor,
lines 177-184. -/
def umdBaseOutput (env : Env) (pkg : Manifest) (options : Options) : Output :=
  { banner := umdBanner env pkg
    file := umdFile env pkg options
    format := "umd"
    globals := some (mergeAssoc env.importedGlobals options.globals)
    name := some (sanitizeName pkg.name)
    footer := umdFooter pkg
    sourcemap := options.sourcemap }

/-- The unminified UMD configuration pushed on lines 174-188. -/
def umdConfig (env : Env) (pkg : Manifest) (options : Options) : Config :=
  { input := resolvedInput env options
    external := externalList pkg options
    output := [applyBundleOutput (umdBaseOutput env pkg options) pkg.bundleOutput]
    plugins := basePlugins
    treeshake := some false }

/-- The minified UMD configuration pushed on lines 191-209: same as the
unminified one except for the `.min.js` file name and the added terser
plugin. -/
def umdMinConfig (env : Env) (pkg : Manifest) (options : Options) : Config :=
  { input := resolvedInput env options
    external := externalList pkg options
    output := [applyBundleOutput
      { umdBaseOutput env pkg options with
          file := replaceJsSuffix (umdFile env pkg options) }
      pkg.bundleOutput]
    plugins := basePlugins ++ [.terser]
    treeshake := some false }

/-- The configuration list returned on success: `[config]` when no UMD bundle
is configured (line 146), otherwise the UMD configuration is pushed (line 174)
and, in production (`NODE_ENV === 'production' || options.production`,
line 190), the minified UMD configuration as well. -/
def mainConfigs (env : Env) (pkg : Manifest) (options : Options) : List Config :=
  if !(truthy (jsOr options.bundle pkg.bundle)) then
    [baseConfig env pkg options]
  else if env.nodeEnvProduction || options.production then
    [baseConfig env pkg options, umdConfig env pkg options, umdMinConfig env pkg options]
  else
    [baseConfig env pkg options, umdConfig env pkg options]

/-- The error message thrown on line 111. -/
def entryErrorMsg : String :=
  "Unable to resolve entry file: <projectFolder>/src/index.(js|ts) do not exist?"

/-- `exports.main`, lines 37-213: throws when no entry file resolves
(lines 110-112), otherwise returns the configuration list. -/
def main (env : Env) (pkg : Manifest) (options : Options) : Except String (List Config) :=
  if truthy (resolveInput env options) then
    Except.ok (mainConfigs env pkg options)
  else
    Except.error entryErrorMsg

/-- All UMD-format output descriptors across a result's configurations. -/
def umdOutputs (r : Except String (List Config)) : List Output :=
  match r with
  | .ok cfgs => ((cfgs.map Config.output).foldr (· ++ ·) []).filter
      (fun o => o.format == "umd")
  | .error _ => []

end Rollup

namespace Monorepo

/-- The `pkg.toJSON()` projection of a lerna package: the package.json content
(name, optional `bundledPackages`, remaining fields kept abstract), plus the
`location` field that line 34 of the runner copies onto it (absent, modelled as
`""`, until that assignment). -/
structure PkgJson where
  name : String
  bundledPackages : List String := []
  extraFields : List (String × String) := []
  location : String := ""
deriving DecidableEq

/-- A package as returned by `getPackages`: its workspace location and its
`toJSON()` manifest content. -/
structure LernaPackage where
  location : String
  manifestJson : PkgJson
deriving DecidableEq

/-- Lines 32-34: map each discovered package to its JSON and set
`pkgJson.location = projectPackages[i].location`. -/
def preparePackages (pkgs : List LernaPackage) : List PkgJson :=
  pkgs.map (fun p => { p.manifestJson with location := p.location })

/-- Line 37: keep the packages whose `location/src/index.ts` exists.
`fsExists` models `fs.existsSync`. -/
def selectPackages (fsExists : String → Bool) (pkgs : List LernaPackage) : List PkgJson :=
  (preparePackages pkgs).filter
    (fun q => fsExists (pathJoin q.location "./src/index.ts"))

/-- The outcome of one `Extractor.invoke` call: either it throws, or it
completes with a success flag and error/warning counts. -/
inductive InvokeResult
  | crash (msg : String)
  | done (succeeded : Bool) (errorCount warningCount : Nat)
deriving DecidableEq

/-- The observable outcome of the per-package loop: console output (log and
error streams merged, in order), the names of the packages extraction was
invoked on, and the `process.exit` code if the loop terminated the process. -/
structure RunState where
  logs : List String
  invoked : List String
  exitCode : Option Nat
deriving DecidableEq

/-- The `${pkg.name} ----…` header logged on line 42. -/
def headerMsg (name : String) : String :=
  name ++ " ---------------------------------------------"

/-- The per-package report of line 105-106. -/
def completedMsg (name : String) (errorCount warningCount : Nat) : String :=
  name ++ ": completed with " ++ toString errorCount ++ " errors and "
    ++ toString warningCount ++ " warnings"

/-- The `forEach` body of lines 41-113 as a recursion over the selected
packages, stopping when `process.exit(1)` fires: a crash logs the failure and
exits (lines 96-100); an unsuccessful completion logs the counts and exits only
when the error count is nonzero (lines 104-112). -/
def runLoop (invoke : PkgJson → InvokeResult) : List PkgJson → RunState
  | [] => { logs := [], invoked := [], exitCode := none }
  | p :: rest =>
    match invoke p with
    | .crash msg =>
      { logs := [headerMsg p.name, p.name ++ " failed:", msg]
        invoked := [p.name]
        exitCode := some 1 }
    | .done succeeded errorCount warningCount =>
      if succeeded then
        let r := runLoop invoke rest
        { logs := [headerMsg p.name, p.name ++ ": completed successfully!"] ++ r.logs
          invoked := p.name :: r.invoked
          exitCode := r.exitCode }
      else if errorCount > 0 then
        { logs := [headerMsg p.name, completedMsg p.name errorCount warningCount]
          invoked := [p.name]
          exitCode := some 1 }
      else
        let r := runLoop invoke rest
        { logs := [headerMsg p.name, completedMsg p.name errorCount warningCount] ++ r.logs
          invoked := p.name :: r.invoked
          exitCode := r.exitCode }

/-- Ambient state of the runner: whether the tsconfig file exists, whether it
declares `compilerOptions.outDir`, and the filesystem existence oracle. -/
structure RunnerEnv where
  tsconfigExists : Bool
  outDirConfigured : Bool
  fsExists : String → Bool

/-- `main` of the runner, lines 11-114: the two configuration checks
(lines 17-25) throw, then the discovered packages are prepared, filtered and
iterated. -/
def runnerMain (env : RunnerEnv) (invoke : PkgJson → InvokeResult)
    (pkgs : List LernaPackage) : Except String RunState :=
  if !env.tsconfigExists then
    Except.error "tsconfig.json does not exist"
  else if !env.outDirConfigured then
    Except.error "tsconfig.json does not specify compilerOptions.outDir"
  else
    Except.ok (runLoop invoke (selectPackages env.fsExists pkgs))

/-- An invoke outcome after which the loop continues to the next package:
success, or an unsuccessful completion with zero errors. -/
def continues : InvokeResult → Bool
  | .crash _ => false
  | .done succeeded errorCount _ => succeeded || decide (errorCount = 0)

end Monorepo

open Rollup Monorepo

/-- The `footer` override carried by the manifest's `bundleOutput`, if any. -/
def bundleOutputFooter (pkg : Manifest) : Option String :=
  match pkg.bundleOutput with
  | none => none
  | some b => b.footer

/-- The `file` override carried by the manifest's `bundleOutput`, if any. -/
def bundleOutputFile (pkg : Manifest) : Option String :=
  match pkg.bundleOutput with
  | none => none
  | some b => b.file

/-- Concrete runner inputs used by witnesses and counterexamples. -/
def fsAll : String → Bool := fun _ => true

def lpA : LernaPackage := { location := "/w/a", manifestJson := { name := "a" } }

def lpB : LernaPackage := { location := "/w/b", manifestJson := { name := "b" } }

def invokeCrash : PkgJson → InvokeResult := fun _ => .crash "boom"

def invokeOk : PkgJson → InvokeResult := fun _ => .done true 0 0

def invokeWarn : PkgJson → InvokeResult := fun _ => .done false 0 3

def runnerEnvW : RunnerEnv :=
  { tsconfigExists := true, outDirConfigured := true, fsExists := fsAll }

/-- Concrete configurator inputs used by witnesses and counterexamples. -/
def envC : Env := { projectFolder := "/p", indexTsExists := true, compiled := "t" }

def pkgQ : Manifest := { name := "q" }

def pkgC1 : Manifest := { name := "q", bundle := some "dist/q.js" }

def pkgC2 : Manifest :=
  { name := "q", peerDependencies := [("p1", "1")], dependencies := [("d1", "1")] }

def optsC2 : Options := { external := ["e1"], excludedExternals := some ["d1"] }

def pkgC4 : Manifest :=
  { name := "q", main := some "lib/q.js", module := some "lib/q.es.js" }

def pkgC5 : Manifest :=
  { name := "q", bundle := some "dist/q.js", standalone := true,
    bundleOutput := some { footer := some "custom" } }

def pkgC5W : Manifest := { name := "q", bundle := some "dist/q.js", standalone := true }

def pkgC10 : Manifest :=
  { name := "q", bundle := some "dist/q.js", bundleOutput := some { file := some "x.js" } }

theorem pathJoin_ne_empty (a b : String) : pathJoin a b ≠ "" := by
  intro h
  have hlen := congrArg String.length h
  simp only [pathJoin, String.length_append,
    show String.length "/" = 1 from rfl, show String.length "" = 0 from rfl] at hlen
  omega

theorem truthy_pathJoin (a b : String) : truthy (some (pathJoin a b)) = true := by
  simp only [truthy, Bool.not_eq_true', beq_eq_false_iff_ne, ne_eq]
  exact pathJoin_ne_empty a b

theorem mem_mainConfigs (env : Env) (pkg : Manifest) (options : Options) (c : Config)
    (hc : c ∈ mainConfigs env pkg options) :
    c = baseConfig env pkg options ∨ c = umdConfig env pkg options
      ∨ c = umdMinConfig env pkg options := by
  unfold mainConfigs at hc
  split at hc
  · simp at hc
    exact Or.inl hc
  · split at hc
    · simp at hc
      rcases hc with h | h | h
      · exact Or.inl h
      · exact Or.inr (Or.inl h)
      · exact Or.inr (Or.inr h)
    · simp at hc
      rcases hc with h | h
      · exact Or.inl h
      · exact Or.inr (Or.inl h)

theorem mem_cjsEsmOutputs_format (env : Env) (pkg : Manifest) (options : Options) (o : Output)
    (ho : o ∈ cjsEsmOutputs env pkg options) : o.format = "cjs" ∨ o.format = "esm" := by
  unfold cjsEsmOutputs at ho
  rcases List.mem_append.mp ho with h | h
  · split at h
    · simp at h
      rw [h]
      exact Or.inl rfl
    · simp at h
  · split at h
    · simp at h
      rw [h]
      exact Or.inr rfl
    · simp at h

theorem mem_umdOutputs (env : Env) (pkg : Manifest) (options : Options) (o : Output)
    (ho : o ∈ umdOutputs (main env pkg options)) :
    o = applyBundleOutput (umdBaseOutput env pkg options) pkg.bundleOutput
    ∨ o = applyBundleOutput
        { umdBaseOutput env pkg options with
            file := replaceJsSuffix (umdFile env pkg options) }
        pkg.bundleOutput := by
  by_cases hc : truthy (resolveInput env options) = true
  · unfold main at ho
    rw [if_pos hc] at ho
    simp only [umdOutputs] at ho
    unfold mainConfigs at ho
    have hbase : ∀ hb : o ∈ (baseConfig env pkg options).output,
        (o.format == "umd") = true → False := by
      intro hb hf
      rcases mem_cjsEsmOutputs_format env pkg options o hb with h | h <;>
        rw [h] at hf <;> simp at hf
    split at ho
    · simp only [List.map_cons, List.map_nil, List.foldr] at ho
      rw [List.mem_filter] at ho
      rcases ho with ⟨hm, hf⟩
      simp only [List.append_nil] at hm
      exact absurd hf (fun hf => hbase hm hf)
    · split at ho <;>
        · simp only [List.map_cons, List.map_nil, List.foldr, List.append_nil] at ho
          rw [List.mem_filter] at ho
          rcases ho with ⟨hm, hf⟩
          rcases List.mem_append.mp hm with h | h
          · exact absurd hf (fun hf => hbase h hf)
          · simp only [umdConfig, umdMinConfig, List.mem_append, List.mem_singleton] at h
            first
            | (rcases h with h | h
               · exact Or.inl h
               · exact Or.inr h)
            | exact Or.inl h
  · unfold main at ho
    rw [if_neg hc] at ho
    simp [umdOutputs] at ho

theorem runLoop_cons_continue (invoke : PkgJson → InvokeResult) (p : PkgJson)
    (rest : List PkgJson) (h : continues (invoke p) = true) :
    (runLoop invoke (p :: rest)).invoked = p.name :: (runLoop invoke rest).invoked
    ∧ (runLoop invoke (p :: rest)).exitCode = (runLoop invoke rest).exitCode
    ∧ (runLoop invoke rest).logs ⊆ (runLoop invoke (p :: rest)).logs := by
  cases hinv : invoke p with
  | crash msg => rw [hinv] at h; simp [continues] at h
  | done succeeded errorCount warningCount =>
    rw [hinv] at h
    simp only [continues] at h
    cases hs : succeeded with
    | true =>
      simp [runLoop, hinv, hs, List.subset_def]
      exact fun ha => Or.inr (Or.inr ha)
    | false =>
      rw [hs] at h
      simp only [Bool.false_or, decide_eq_true_eq] at h
      simp [runLoop, hinv, hs, h, List.subset_def]
      exact fun ha => Or.inr (Or.inr ha)

theorem runLoop_append_continues (invoke : PkgJson → InvokeResult) (pre rest : List PkgJson)
    (hpre : ∀ q ∈ pre, continues (invoke q) = true) :
    (runLoop invoke (pre ++ rest)).invoked
        = pre.map PkgJson.name ++ (runLoop invoke rest).invoked
    ∧ (runLoop invoke (pre ++ rest)).exitCode = (runLoop invoke rest).exitCode
    ∧ (runLoop invoke rest).logs ⊆ (runLoop invoke (pre ++ rest)).logs := by
  induction pre with
  | nil => simp [List.subset_def]
  | cons q pre ih =>
    have hq : continues (invoke q) = true := hpre q (List.mem_cons_self q pre)
    have ih' := ih (fun r hr => hpre r (List.mem_cons_of_mem q hr))
    have hstep := runLoop_cons_continue invoke q (pre ++ rest) hq
    refine ⟨?_, ?_, ?_⟩
    · rw [List.cons_append, hstep.1, ih'.1]; simp
    · rw [List.cons_append, hstep.2.1, ih'.2.1]
    · rw [List.cons_append]
      exact fun x hx => hstep.2.2 (ih'.2.2 hx)

theorem runLoop_invoked_all_continue (invoke : PkgJson → InvokeResult) (l : List PkgJson)
    (h : ∀ q ∈ l, continues (invoke q) = true) :
    (runLoop invoke l).invoked = l.map PkgJson.name := by
  induction l with
  | nil => simp [runLoop]
  | cons q rest ih =>
    have hq := h q (List.mem_cons_self q rest)
    have := runLoop_cons_continue invoke q rest hq
    rw [this.1, ih (fun r hr => h r (List.mem_cons_of_mem q hr))]
    rfl

/-- C6: when an extraction crashes, the runner logs the error, exits with
code 1, and invokes no further package after the crashing one. -/
theorem claim_c6_crash_terminates (invoke : PkgJson → InvokeResult)
    (pre post : List PkgJson) (p : PkgJson) (msg : String)
    (hpre : ∀ q ∈ pre, continues (invoke q) = true)
    (hp : invoke p = InvokeResult.crash msg) :
    (runLoop invoke (pre ++ p :: post)).exitCode = some 1
    ∧ (runLoop invoke (pre ++ p :: post)).invoked = pre.map PkgJson.name ++ [p.name]
    ∧ (p.name ++ " failed:") ∈ (runLoop invoke (pre ++ p :: post)).logs
    ∧ msg ∈ (runLoop invoke (pre ++ p :: post)).logs := by
  have hcrash : runLoop invoke (p :: post)
      = { logs := [headerMsg p.name, p.name ++ " failed:", msg]
          invoked := [p.name], exitCode := some 1 } := by
    simp [runLoop, hp]
  have h := runLoop_append_continues invoke pre (p :: post) hpre
  refine ⟨?_, ?_, ?_, ?_⟩
  · rw [h.2.1, hcrash]
  · rw [h.1, hcrash]
  · exact h.2.2 (by rw [hcrash]; simp)
  · exact h.2.2 (by rw [hcrash]; simp)

theorem claim_c6_crash_terminates_witness :
    invokeCrash { name := "a" } = InvokeResult.crash "boom"
    ∧ ((runLoop invokeCrash ([] ++ { name := "a" } :: [{ name := "b" }])).exitCode = some 1
        ∧ (runLoop invokeCrash ([] ++ ({ name := "a" } : PkgJson) :: [{ name := "b" }])).invoked
            = ([] : List PkgJson).map PkgJson.name ++ [({ name := "a" } : PkgJson).name]
        ∧ (({ name := "a" } : PkgJson).name ++ " failed:")
            ∈ (runLoop invokeCrash ([] ++ ({ name := "a" } : PkgJson) :: [{ name := "b" }])).logs
        ∧ "boom" ∈ (runLoop invokeCrash
            ([] ++ ({ name := "a" } : PkgJson) :: [{ name := "b" }])).logs) :=
  ⟨rfl,
   claim_c6_crash_terminates invokeCrash [] [{ name := "b" }] { name := "a" } "boom"
     (by simp) rfl⟩

/-- C7: an unsuccessful completion is reported with its error and warning
counts; the runner exits with code 1 when the error count is nonzero, and
continues with the next package when only warnings occurred. -/
theorem claim_c7_error_counts (invoke : PkgJson → InvokeResult) (p : PkgJson)
    (rest : List PkgJson) (e w : Nat)
    (hp : invoke p = InvokeResult.done false e w) :
    completedMsg p.name e w ∈ (runLoop invoke (p :: rest)).logs
    ∧ (0 < e → (runLoop invoke (p :: rest)).exitCode = some 1
        ∧ (runLoop invoke (p :: rest)).invoked = [p.name])
    ∧ (e = 0 → (runLoop invoke (p :: rest)).invoked = p.name :: (runLoop invoke rest).invoked
        ∧ (runLoop invoke (p :: rest)).exitCode = (runLoop invoke rest).exitCode) := by
  by_cases he : 0 < e
  · refine ⟨?_, fun _ => ?_, fun h0 => by omega⟩ <;> simp [runLoop, hp, he]
  · have h0 : e = 0 := by omega
    subst h0
    refine ⟨?_, fun h => by omega, fun _ => ?_⟩ <;> simp [runLoop, hp]

theorem claim_c7_error_counts_witness :
    invokeWarn ({ name := "a" } : PkgJson) = InvokeResult.done false 0 3
    ∧ (completedMsg "a" 0 3 ∈ (runLoop invokeWarn [{ name := "a" }, { name := "b" }]).logs
        ∧ (0 < 0 → (runLoop invokeWarn [{ name := "a" }, { name := "b" }]).exitCode = some 1
            ∧ (runLoop invokeWarn [{ name := "a" }, { name := "b" }]).invoked = ["a"])
        ∧ (0 = 0 → (runLoop invokeWarn [{ name := "a" }, { name := "b" }]).invoked
              = "a" :: (runLoop invokeWarn [{ name := "b" }]).invoked
            ∧ (runLoop invokeWarn [{ name := "a" }, { name := "b" }]).exitCode
              = (runLoop invokeWarn [{ name := "b" }]).exitCode)) :=
  ⟨rfl, claim_c7_error_counts invokeWarn { name := "a" } [{ name := "b" }] 0 3 rfl⟩

/-- C8 fails as stated: with two packages both holding an entry file (M = 2),
a crash on the first causes only one extraction invocation. -/
theorem claim_c8_counterexample :
    (selectPackages fsAll [lpA, lpB]).length = 2
    ∧ (runLoop invokeCrash (selectPackages fsAll [lpA, lpB])).invoked.length = 1 :=
  ⟨rfl, rfl⟩

/-- C8 amended: the runner invokes extraction on exactly the M packages that
have the `src/index.ts` entry file, provided no extraction crashes or completes
with a nonzero error count. -/
theorem claim_c8_invocations (env : RunnerEnv) (invoke : PkgJson → InvokeResult)
    (pkgs : List LernaPackage) (st : RunState)
    (hok : runnerMain env invoke pkgs = Except.ok st)
    (hcont : ∀ q ∈ selectPackages env.fsExists pkgs, continues (invoke q) = true) :
    st.invoked = (selectPackages env.fsExists pkgs).map PkgJson.name
    ∧ st.invoked.length = (selectPackages env.fsExists pkgs).length := by
  have hst : st = runLoop invoke (selectPackages env.fsExists pkgs) := by
    unfold runnerMain at hok
    cases hts : env.tsconfigExists <;> rw [hts] at hok <;> simp at hok
    cases hod : env.outDirConfigured <;> rw [hod] at hok <;> simp at hok
    exact hok.symm
  subst hst
  have h := runLoop_invoked_all_continue invoke (selectPackages env.fsExists pkgs) hcont
  exact ⟨h, by rw [h, List.length_map]⟩

theorem claim_c8_invocations_witness :
    runnerMain runnerEnvW invokeOk [lpA, lpB]
        = Except.ok (runLoop invokeOk (selectPackages fsAll [lpA, lpB]))
    ∧ (∀ q ∈ selectPackages runnerEnvW.fsExists [lpA, lpB], continues (invokeOk q) = true)
    ∧ ((runLoop invokeOk (selectPackages fsAll [lpA, lpB])).invoked
          = (selectPackages runnerEnvW.fsExists [lpA, lpB]).map PkgJson.name
        ∧ (runLoop invokeOk (selectPackages fsAll [lpA, lpB])).invoked.length
          = (selectPackages runnerEnvW.fsExists [lpA, lpB]).length) :=
  ⟨rfl, by decide,
   claim_c8_invocations runnerEnvW invokeOk [lpA, lpB]
     (runLoop invokeOk (selectPackages fsAll [lpA, lpB])) rfl (by decide)⟩

/-- C9: the runner only filters the discovered workspace package list; every
tuple that reaches extraction is a tuple of the discovery output, with the
same name, location, bundledPackages and remaining manifest fields. -/
theorem claim_c9_filter_not_mutate (fsExists : String → Bool) (pkgs : List LernaPackage)
    (q : PkgJson) (hq : q ∈ selectPackages fsExists pkgs) :
    List.Sublist (selectPackages fsExists pkgs) (preparePackages pkgs)
    ∧ ∃ p ∈ pkgs, q.name = p.manifestJson.name
        ∧ q.location = p.location
        ∧ q.bundledPackages = p.manifestJson.bundledPackages
        ∧ q.extraFields = p.manifestJson.extraFields := by
  constructor
  · exact List.filter_sublist (preparePackages pkgs)
  · have hq' : q ∈ preparePackages pkgs := List.mem_of_mem_filter hq
    unfold preparePackages at hq'
    rcases List.mem_map.mp hq' with ⟨p, hp, hpq⟩
    exact ⟨p, hp, by rw [← hpq], by rw [← hpq], by rw [← hpq], by rw [← hpq]⟩

theorem claim_c9_filter_not_mutate_witness :
    lpA.manifestJson.location = "" ∧
    ({ name := "a", location := "/w/a" } : PkgJson) ∈ selectPackages fsAll [lpA, lpB]
    ∧ (List.Sublist (selectPackages fsAll [lpA, lpB]) (preparePackages [lpA, lpB])
        ∧ ∃ p ∈ [lpA, lpB], ({ name := "a", location := "/w/a" } : PkgJson).name
              = p.manifestJson.name
            ∧ ({ name := "a", location := "/w/a" } : PkgJson).location = p.location
            ∧ ({ name := "a", location := "/w/a" } : PkgJson).bundledPackages
              = p.manifestJson.bundledPackages
            ∧ ({ name := "a", location := "/w/a" } : PkgJson).extraFields
              = p.manifestJson.extraFields) :=
  ⟨rfl, by decide,
   claim_c9_filter_not_mutate fsAll [lpA, lpB] { name := "a", location := "/w/a" } (by decide)⟩

/-- C1 fails as stated: with `bundle` set and `production` true, the assembler
returns three configuration objects (not two), and only two UMD output
descriptors (not three) appear in total. -/
theorem claim_c1_counterexample :
    ((main envC pkgC1 { production := true }).toOption.getD []).length = 3
    ∧ (umdOutputs (main envC pkgC1 { production := true })).length = 2 :=
  ⟨rfl, rfl⟩

/-- C1 amended: with a UMD path configured and `production` true, the assembler
returns exactly three configuration objects: the first carrying the main/module
outputs (one descriptor per configured path), the second carrying the
unminified UMD descriptor, and the third carrying the minified UMD descriptor
(terser appended to its plugins) — two UMD descriptors in total. -/
theorem claim_c1_three_configs (env : Env) (pkg : Manifest) (options : Options)
    (hb : truthy (jsOr options.bundle pkg.bundle) = true)
    (hp : options.production = true)
    (hin : truthy (resolveInput env options) = true) :
    main env pkg options = Except.ok
        [baseConfig env pkg options, umdConfig env pkg options, umdMinConfig env pkg options]
    ∧ (umdConfig env pkg options).output.length = 1
    ∧ (umdMinConfig env pkg options).output.length = 1
    ∧ (umdConfig env pkg options).plugins = basePlugins
    ∧ (umdMinConfig env pkg options).plugins = basePlugins ++ [Plugin.terser]
    ∧ (baseConfig env pkg options).output.length
        = ((if truthy (jsOr options.main pkg.main) then 1 else 0)
            + (if truthy (jsOr options.module pkg.module) then 1 else 0))
    ∧ (pkg.bundleOutput = none →
        ((umdConfig env pkg options).output
            ++ (umdMinConfig env pkg options).output).map Output.format = ["umd", "umd"]) := by
  refine ⟨?_, rfl, rfl, rfl, rfl, ?_, ?_⟩
  · unfold main
    rw [if_pos hin]
    unfold mainConfigs
    rw [hb, hp]
    simp
  · unfold baseConfig cjsEsmOutputs
    cases h1 : truthy (jsOr options.main pkg.main) <;>
      cases h2 : truthy (jsOr options.module pkg.module) <;> simp
  · intro hbo
    simp [umdConfig, umdMinConfig, applyBundleOutput, umdBaseOutput, hbo]

theorem claim_c1_three_configs_witness :
    truthy (jsOr ({ production := true } : Options).bundle pkgC1.bundle) = true
    ∧ ({ production := true } : Options).production = true
    ∧ truthy (resolveInput envC { production := true }) = true
    ∧ main envC pkgC1 { production := true } = Except.ok
        [baseConfig envC pkgC1 { production := true },
          umdConfig envC pkgC1 { production := true },
          umdMinConfig envC pkgC1 { production := true }] :=
  ⟨rfl, rfl, rfl, (claim_c1_three_configs envC pkgC1 { production := true } rfl rfl rfl).1⟩

/-- C2: every configuration produced by the assembler carries the externals
list, and membership in that list is exactly: in the caller-supplied list, or a
`peerDependencies` key, or a `dependencies` key, and not among the
`excludedExternals`. -/
theorem claim_c2_externals (env : Env) (pkg : Manifest) (options : Options) (x : String)
    (cfgs : List Config) (hok : main env pkg options = Except.ok cfgs)
    (c : Config) (hc : c ∈ cfgs) :
    c.external = externalList pkg options
    ∧ (x ∈ externalList pkg options ↔
        ((x ∈ options.external ∨ x ∈ pkg.peerDependencies.map Prod.fst
            ∨ x ∈ pkg.dependencies.map Prod.fst)
          ∧ x ∉ options.excludedExternals.getD [])) := by
  constructor
  · have hcfgs : cfgs = mainConfigs env pkg options := by
      unfold main at hok
      split at hok
      · exact (Except.ok.inj hok).symm
      · simp at hok
    subst hcfgs
    rcases mem_mainConfigs env pkg options c hc with h | h | h <;> rw [h] <;> rfl
  · unfold externalList
    cases hex : options.excludedExternals with
    | none => simp [List.mem_filter, List.mem_append, or_assoc]
    | some excl =>
      simp [List.mem_filter, List.mem_append, or_assoc]
      tauto

theorem claim_c2_externals_witness :
    main envC pkgC2 optsC2 = Except.ok [baseConfig envC pkgC2 optsC2]
    ∧ baseConfig envC pkgC2 optsC2 ∈ [baseConfig envC pkgC2 optsC2]
    ∧ ((baseConfig envC pkgC2 optsC2).external = externalList pkgC2 optsC2
        ∧ ("e1" ∈ externalList pkgC2 optsC2 ↔
            (("e1" ∈ optsC2.external ∨ "e1" ∈ pkgC2.peerDependencies.map Prod.fst
                ∨ "e1" ∈ pkgC2.dependencies.map Prod.fst)
              ∧ "e1" ∉ optsC2.excludedExternals.getD []))) :=
  ⟨rfl, List.mem_singleton.mpr rfl,
   claim_c2_externals envC pkgC2 optsC2 "e1" [baseConfig envC pkgC2 optsC2] rfl
     (baseConfig envC pkgC2 optsC2) (List.mem_singleton.mpr rfl)⟩

/-- C3: the entry point is the caller override when supplied, else
`src/index.ts` when it exists, else `src/index.js` when it exists; the
assembler throws exactly when none of the three is available. -/
theorem claim_c3_entry_resolution (env : Env) (pkg : Manifest) (options : Options) :
    (truthy options.input = true → resolveInput env options = options.input)
    ∧ (truthy options.input = false → env.indexTsExists = true →
        resolveInput env options = some (pathJoin env.projectFolder "src/index.ts"))
    ∧ (truthy options.input = false → env.indexTsExists = false → env.indexJsExists = true →
        resolveInput env options = some (pathJoin env.projectFolder "src/index.js"))
    ∧ ((main env pkg options).isOk = false ↔
        truthy options.input = false ∧ env.indexTsExists = false
          ∧ env.indexJsExists = false) := by
  cases hin : truthy options.input <;>
    cases hts : env.indexTsExists <;>
      cases hjs : env.indexJsExists <;>
        simp [main, resolveInput, hin, hts, hjs, truthy_pathJoin, Except.isOk,
          Except.toBool]

theorem claim_c3_entry_resolution_witness :
    truthy ({} : Options).input = false ∧ envC.indexTsExists = true
    ∧ resolveInput envC {} = some (pathJoin envC.projectFolder "src/index.ts") :=
  ⟨rfl, rfl, (claim_c3_entry_resolution envC pkgQ {}).2.1 rfl rfl⟩

/-- C4: with `main` and `module` set, no `bundle` and no caller overrides, the
assembler returns one configuration whose output list is exactly a CommonJS
descriptor followed by an ESM descriptor. -/
theorem claim_c4_cjs_esm (env : Env) (pkg : Manifest) (options : Options)
    (hmain : truthy pkg.main = true) (hmod : truthy pkg.module = true)
    (hnob : truthy pkg.bundle = false)
    (hom : options.main = none) (homod : options.module = none) (hob : options.bundle = none)
    (hin : truthy (resolveInput env options) = true) :
    main env pkg options = Except.ok [baseConfig env pkg options]
    ∧ (baseConfig env pkg options).output.map Output.format = ["cjs", "esm"]
    ∧ (baseConfig env pkg options).output.length = 2 := by
  have hjb : jsOr options.bundle pkg.bundle = pkg.bundle := by rw [hob]; rfl
  have hjm : jsOr options.main pkg.main = pkg.main := by rw [hom]; rfl
  have hjmod : jsOr options.module pkg.module = pkg.module := by rw [homod]; rfl
  refine ⟨?_, ?_, ?_⟩
  · unfold main
    rw [if_pos hin]
    unfold mainConfigs
    rw [hjb, hnob]
    simp
  · simp [baseConfig, cjsEsmOutputs, hjm, hjmod, hmain, hmod]
  · simp [baseConfig, cjsEsmOutputs, hjm, hjmod, hmain, hmod]

theorem claim_c4_cjs_esm_witness :
    truthy pkgC4.main = true ∧ truthy pkgC4.module = true ∧ truthy pkgC4.bundle = false
    ∧ truthy (resolveInput envC {}) = true
    ∧ (main envC pkgC4 {} = Except.ok [baseConfig envC pkgC4 {}]
        ∧ (baseConfig envC pkgC4 {}).output.map Output.format = ["cjs", "esm"]
        ∧ (baseConfig envC pkgC4 {}).output.length = 2) :=
  ⟨rfl, rfl, rfl, rfl, claim_c4_cjs_esm envC pkgC4 {} rfl rfl rfl rfl rfl rfl rfl⟩

/-- C5 fails as stated: a standalone manifest whose `bundleOutput` sets a
`footer` yields a UMD descriptor whose footer is present (the override), so the
footer is not absent for every manifest with `standalone: true`. -/
theorem claim_c5_counterexample :
    pkgC5.standalone = true
    ∧ truthy (jsOr ({} : Options).bundle pkgC5.bundle) = true
    ∧ (umdOutputs (main envC pkgC5 {})).map Output.footer = [some "custom"] :=
  ⟨rfl, rfl, rfl⟩

/-- C5 amended: when the manifest's `bundleOutput` does not override the
footer, every UMD descriptor of a standalone package has no footer, and every
UMD descriptor of a non-standalone package with `bundleNoExports` not `true`
carries the namespace-attachment footer. -/
theorem claim_c5_standalone_footer (env : Env) (pkg : Manifest) (options : Options)
    (hfo : bundleOutputFooter pkg = none) :
    (pkg.standalone = true → ∀ o ∈ umdOutputs (main env pkg options), o.footer = none)
    ∧ (pkg.standalone = false → pkg.bundleNoExports ≠ some true →
        ∀ o ∈ umdOutputs (main env pkg options),
          o.footer = some (footerText (sanitizeName pkg.name) (nsOf pkg))) := by
  have hfoot : ∀ o ∈ umdOutputs (main env pkg options), o.footer = umdFooter pkg := by
    intro o ho
    rcases mem_umdOutputs env pkg options o ho with h | h <;> subst h <;>
      cases hbo : pkg.bundleOutput with
      | none => simp [applyBundleOutput, umdBaseOutput]
      | some b =>
        have hbf : b.footer = none := by
          unfold bundleOutputFooter at hfo
          rw [hbo] at hfo
          exact hfo
        simp [applyBundleOutput, umdBaseOutput, hbf]
  constructor
  · intro hs o ho
    rw [hfoot o ho]
    simp [umdFooter, hs]
  · intro hs hne o ho
    rw [hfoot o ho]
    simp [umdFooter, hs, hne]

set_option maxRecDepth 8000 in
theorem claim_c5_standalone_footer_witness :
    bundleOutputFooter pkgC5W = none ∧ pkgC5W.standalone = true
    ∧ umdBaseOutput envC pkgC5W {} ∈ umdOutputs (main envC pkgC5W {})
    ∧ (umdBaseOutput envC pkgC5W {}).footer = none :=
  ⟨rfl, rfl, by exact List.mem_singleton.mpr rfl,
   (claim_c5_standalone_footer envC pkgC5W {} rfl).1 rfl (umdBaseOutput envC pkgC5W {})
     (by exact List.mem_singleton.mpr rfl)⟩

/-- C10 fails as stated: a `bundleOutput.file` override makes both UMD
descriptors target the override path, so the minified path is not the
unminified path with `.js` replaced by `.min.js`. -/
theorem claim_c10_counterexample :
    (umdOutputs (main envC pkgC10 { production := true })).map Output.file = ["x.js", "x.js"]
    ∧ replaceJsSuffix "x.js" = "x.min.js"
    ∧ ("x.js" : String) ≠ "x.min.js" :=
  ⟨rfl, rfl, by decide⟩

/-- C10 amended: when the manifest's `bundleOutput` does not override the file
path, the minified UMD descriptor's path is the unminified one with a trailing
`.js` replaced by `.min.js`, and the two descriptors target the same file when
the UMD path does not end in `.js`. -/
theorem claim_c10_min_file (env : Env) (pkg : Manifest) (options : Options)
    (hfile : bundleOutputFile pkg = none) :
    (umdMinConfig env pkg options).output.map Output.file
        = (umdConfig env pkg options).output.map (fun o => replaceJsSuffix o.file)
    ∧ (endsWithJs (umdFile env pkg options) = false →
        (umdMinConfig env pkg options).output.map Output.file
          = (umdConfig env pkg options).output.map Output.file) := by
  constructor
  · cases hbo : pkg.bundleOutput with
    | none => simp [umdMinConfig, umdConfig, applyBundleOutput, umdBaseOutput, hbo]
    | some b =>
      have hbf : b.file = none := by
        unfold bundleOutputFile at hfile
        rw [hbo] at hfile
        exact hfile
      simp [umdMinConfig, umdConfig, applyBundleOutput, umdBaseOutput, hbo, hbf]
  · intro hend
    have hrep : replaceJsSuffix (umdFile env pkg options) = umdFile env pkg options := by
      unfold replaceJsSuffix
      rw [hend]
      simp
    cases hbo : pkg.bundleOutput with
    | none => simp [umdMinConfig, umdConfig, applyBundleOutput, umdBaseOutput, hbo, hrep]
    | some b =>
      have hbf : b.file = none := by
        unfold bundleOutputFile at hfile
        rw [hbo] at hfile
        exact hfile
      simp [umdMinConfig, umdConfig, applyBundleOutput, umdBaseOutput, hbo, hbf, hrep]

theorem claim_c10_min_file_witness :
    bundleOutputFile pkgC1 = none
    ∧ (umdMinConfig envC pkgC1 {}).output.map Output.file
        = (umdConfig envC pkgC1 {}).output.map (fun o => replaceJsSuffix o.file) :=
  ⟨rfl, (claim_c10_min_file envC pkgC1 {} rfl).1⟩

end PixiBuildTools
